import Mathlib

/-!
Verification development for the payload discovery and normalization layer of
the monobook-ing apps-sdk widgets.

The embedding models the JavaScript values handled by the widgets as a closed
inductive type.  A string is represented by the outcome of JSON-parsing it:
the extraction pipeline only ever observes a string through parseJson, which
returns the parsed value on success and null on failure, so constructor vstrP
carries the parse result and vstrN stands for a string that is empty or does
not parse.  Objects carry their own enumerable string-keyed fields in
insertion order; arrays carry their elements.  Numbers are modelled as
integers (no claim examines numeric contents).

Sources embedded here:
  apps-sdk/chatgpt/src/widget/SearchRoomsWidget.tsx   (room-search widget)
  src/unnamed/part_001  (BookingCardWidget, booking variant)
  src/unnamed/part_002  (SearchRoomsWidgetV2; extraction logic identical to
                         SearchRoomsWidget.tsx)
-/

namespace Widget

mutual

/-- Model of a JavaScript runtime value as observed by the extraction
pipeline.  See the module comment for the treatment of strings. -/
inductive JVal : Type where
  | vundefined : JVal
  | vnull : JVal
  | vbool : Bool → JVal
  | vnum : Int → JVal
  | vstrN : JVal
  | vstrP : JVal → JVal
  | varr : JArr → JVal
  | vobj : JFields → JVal

/-- Elements of a JavaScript array, in order. -/
inductive JArr : Type where
  | anil : JArr
  | acons : JVal → JArr → JArr

/-- Own enumerable string-keyed fields of a JavaScript object, in insertion
order. -/
inductive JFields : Type where
  | fnil : JFields
  | fcons : String → JVal → JFields → JFields

end

deriving instance DecidableEq for JVal

/-- Embeds the isRecord helper (SearchRoomsWidget.tsx line 45): true exactly
when the JavaScript test `typeof value === "object" && value !== null` holds,
which accepts both plain objects and arrays and rejects null. -/
def isRecord : JVal → Bool
  | .varr _ => true
  | .vobj _ => true
  | _ => false

/-- Lookup of an own field by name, returning vundefined when absent (JavaScript
property access on a plain object). -/
def getF : JFields → String → JVal
  | .fnil, _ => .vundefined
  | .fcons k v tl, key => if k = key then v else getF tl key

/-- Property access `record[key]` as used by the extractor: a named,
non-numeric property read.  On an array or primitive such a read yields
undefined (the extractor only reads names like "structuredContent", "result"
or "content", none of which is an array property). -/
def getField : JVal → String → JVal
  | .vobj fs, key => getF fs key
  | _, _ => .vundefined

/-- Membership of an own field name. -/
def hasF : JFields → String → Bool
  | .fnil, _ => false
  | .fcons k _ tl, key => k = key || hasF tl key

/-- Embeds `Object.prototype.hasOwnProperty.call value key` for the key names
probed by the schema sniffers; on arrays and primitives those names are not
own properties. -/
def hasOwnKey : JVal → String → Bool
  | .vobj fs, key => hasF fs key
  | _, _ => false

/-- Embeds `Object.values record` for the two record shapes the extractor can
hold after coercion (plain object or array). -/
def toListA : JArr → List JVal
  | .anil => []
  | .acons h t => h :: toListA t

/-- Field values of an object, in insertion order. -/
def valuesF : JFields → List JVal
  | .fnil => []
  | .fcons _ v t => v :: valuesF t

/-- Own enumerable values of a record (Object.values). -/
def ownValues : JVal → List JVal
  | .vobj fs => valuesF fs
  | .varr xs => toListA xs
  | _ => []

/-- Embeds coerceToRecord (SearchRoomsWidget.tsx lines 57-64, identical in
part_001 lines 50-57): a non-null object (arrays included) is returned as is;
a string is JSON-parsed and the parse returned when it is a non-null object;
everything else is not coercible. -/
def coerceToRecord : JVal → Option JVal
  | .vobj fs => some (.vobj fs)
  | .varr xs => some (.varr xs)
  | .vstrP p => if isRecord p then some p else none
  | _ => none

/-- Embeds hasSearchRoomsData (SearchRoomsWidget.tsx lines 66-71): the
room-search schema sniffer, true when any one recognized key is an own
property. -/
def hasSearchRoomsData (v : JVal) : Bool :=
  hasOwnKey v "rooms" || hasOwnKey v "hotels" || hasOwnKey v "count" ||
    hasOwnKey v "property_name" || hasOwnKey v "error"

/-- Embeds hasBookingData (part_001 lines 59-63): the booking schema sniffer,
true when booking_id is an own property, or when status, total and check_in
all are. -/
def hasBookingData (v : JVal) : Bool :=
  hasOwnKey v "booking_id" ||
    (hasOwnKey v "status" && hasOwnKey v "total" && hasOwnKey v "check_in")

/-- The well-known wrapper keys swept by the extractor, in source order
(SearchRoomsWidget.tsx lines 100-110). -/
def wrapperKeys : List String :=
  ["result", "output", "data", "response", "toolResult", "tool_result",
   "toolOutput", "tool_output", "value"]

/-- Fallback sweep over Object.values of the record (SearchRoomsWidget.tsx
lines 130-136): coerce each own value and return the first that passes the
schema sniffer. -/
def valuesSweep (sniff : JVal → Bool) : List JVal → Option JVal
  | [] => none
  | v :: rest =>
    match coerceToRecord v with
    | none => valuesSweep sniff rest
    | some nested => if sniff nested then some nested else valuesSweep sniff rest

/-- Step 2 of the extractor (SearchRoomsWidget.tsx lines 95-98, part_001
lines 69-72): coerce the structuredContent field and return it when the
variant's guard accepts it.  The room-search guard accepts everything; the
booking guard is hasBookingData. -/
def structuredPart (guard : JVal → Bool) (record : JVal) : Option JVal :=
  match coerceToRecord (getField record "structuredContent") with
  | some s => if guard s then some s else none
  | none => none

/-- Step 3 of the extractor (lines 100-113): recursive sweep over the
well-known wrapper keys, first non-null result wins.  The recursive extractor
is passed in as ex. -/
def wrapperPart (ex : JVal → Option JVal) (record : JVal) : Option JVal :=
  wrapperKeys.findSome? fun k => ex (getField record k)

/-- Step 4 of the extractor (lines 115-124): when the content field is an
array, JSON-parse the string text field of each object entry and extract
recursively from the parse (parseJson returns null on failure, and extracting
from null yields nothing). -/
def contentPart (ex : JVal → Option JVal) (record : JVal) : Option JVal :=
  match getField record "content" with
  | .varr items =>
    (toListA items).findSome? fun item =>
      if isRecord item then
        match getField item "text" with
        | .vstrP p => ex p
        | .vstrN => ex .vnull
        | _ => none
      else none
  | _ => none

/-- Step 5 of the extractor (lines 126-128): the record itself when it passes
the schema sniffer. -/
def selfPart (sniff : JVal → Bool) (record : JVal) : Option JVal :=
  if sniff record then some record else none

/-- Embeds the recursive payload extractor, parametrized by the check applied
to a coerced structuredContent field (guard) and by the schema sniffer
(sniff).  The room-search variant (SearchRoomsWidget.tsx lines 89-139,
part_002 lines 89-139) returns a coerced structuredContent without any check,
so its guard is constantly true; the booking variant (part_001 lines 65-113)
additionally requires hasBookingData of it.  Otherwise the two variants are
textually identical.

The fuel argument bounds the recursion depth.  Every recursive call descends
to a value of strictly smaller size (a field of the record, or a parsed text
block inside its content array), so sizeJ v + 1 fuel always suffices; the
wrapper extractPayloadWith below supplies it. -/
def extractFuel (guard sniff : JVal → Bool) : Nat → JVal → Option JVal
  | 0, _ => none
  | fuel + 1, payload =>
    match coerceToRecord payload with
    | none => none
    | some record =>
      match structuredPart guard record with
      | some s => some s
      | none =>
      match wrapperPart (fun u => extractFuel guard sniff fuel u) record with
      | some x => some x
      | none =>
      match contentPart (fun u => extractFuel guard sniff fuel u) record with
      | some x => some x
      | none =>
      match selfPart sniff record with
      | some r => some r
      | none => valuesSweep sniff (ownValues record)

mutual

/-- Size of a value: number of object, array and parsed-string layers. -/
def sizeJ : JVal → Nat
  | .vstrP p => sizeJ p + 1
  | .varr xs => sizeA xs + 1
  | .vobj fs => sizeF fs + 1
  | _ => 0

/-- Total size of array elements. -/
def sizeA : JArr → Nat
  | .anil => 0
  | .acons h t => sizeJ h + sizeA t

/-- Total size of object field values. -/
def sizeF : JFields → Nat
  | .fnil => 0
  | .fcons _ v t => sizeJ v + sizeF t

end

/-- The extractor at its natural fuel: one unit per possible nesting layer of
the input, which the source recursion can never exceed. -/
def extractPayloadWith (guard sniff : JVal → Bool) (payload : JVal) : Option JVal :=
  extractFuel guard sniff (sizeJ payload + 1) payload

/-- Guard of the room-search variant: a coerced structuredContent is returned
unconditionally (SearchRoomsWidget.tsx lines 95-98). -/
def alwaysTrue : JVal → Bool := fun _ => true

/-- Embeds extractStructuredPayload (SearchRoomsWidget.tsx lines 89-139 and
part_002 lines 89-139, identical). -/
def extractStructuredPayload (payload : JVal) : Option JVal :=
  extractPayloadWith alwaysTrue hasSearchRoomsData payload

/-- Embeds extractBookingPayload (part_001 lines 65-113). -/
def extractBookingPayload (payload : JVal) : Option JVal :=
  extractPayloadWith hasBookingData hasBookingData payload

/-- Convenience constructor for object literals in examples. -/
def fieldsOf : List (String × JVal) → JFields
  | [] => .fnil
  | (k, v) :: rest => .fcons k v (fieldsOf rest)

/-- Object literal. -/
def jobj (fs : List (String × JVal)) : JVal := .vobj (fieldsOf fs)

/-- Array elements from a list. -/
def arrOf : List JVal → JArr
  | [] => .anil
  | v :: rest => .acons v (arrOf rest)

/-- Array literal. -/
def jarr (vs : List JVal) : JVal := .varr (arrOf vs)

/-! ## Fuel sufficiency

The source recursion carries no fuel; the embedding's fuel only bounds the
recursion depth.  The following lemmas show that every recursive call of the
extractor descends to a strictly smaller value, so any fuel above the input's
size computes the same result: extractPayloadWith is the total function the
source defines on finite values. -/

/-- Coercion yields a record in the isRecord sense. -/
lemma isRecord_of_coerce : ∀ {v r : JVal}, coerceToRecord v = some r →
    isRecord r = true := by
  intro v r hc
  cases v with
  | vobj fs =>
    have : (.vobj fs : JVal) = r := by simpa [coerceToRecord] using hc
    exact this ▸ rfl
  | varr xs =>
    have : (.varr xs : JVal) = r := by simpa [coerceToRecord] using hc
    exact this ▸ rfl
  | vstrP p =>
    by_cases hp : isRecord p
    · have : p = r := by simpa [coerceToRecord, hp] using hc
      exact this ▸ hp
    · exact absurd hc (by simp [coerceToRecord, hp])
  | vundefined => exact absurd hc (by simp [coerceToRecord])
  | vnull => exact absurd hc (by simp [coerceToRecord])
  | vbool b => exact absurd hc (by simp [coerceToRecord])
  | vnum n => exact absurd hc (by simp [coerceToRecord])
  | vstrN => exact absurd hc (by simp [coerceToRecord])

/-- Coercion does not grow the size. -/
lemma sizeJ_coerce_le : ∀ {v r : JVal}, coerceToRecord v = some r →
    sizeJ r ≤ sizeJ v := by
  intro v r hc
  cases v with
  | vobj fs =>
    have : (.vobj fs : JVal) = r := by simpa [coerceToRecord] using hc
    exact this ▸ Nat.le_refl _
  | varr xs =>
    have : (.varr xs : JVal) = r := by simpa [coerceToRecord] using hc
    exact this ▸ Nat.le_refl _
  | vstrP p =>
    by_cases hp : isRecord p
    · have hpr : p = r := by simpa [coerceToRecord, hp] using hc
      subst hpr
      show sizeJ p ≤ sizeJ p + 1
      exact Nat.le_succ _
    · exact absurd hc (by simp [coerceToRecord, hp])
  | vundefined => exact absurd hc (by simp [coerceToRecord])
  | vnull => exact absurd hc (by simp [coerceToRecord])
  | vbool b => exact absurd hc (by simp [coerceToRecord])
  | vnum n => exact absurd hc (by simp [coerceToRecord])
  | vstrN => exact absurd hc (by simp [coerceToRecord])

/-- A record has positive size. -/
lemma sizeJ_pos_of_isRecord : ∀ {r : JVal}, isRecord r = true → 1 ≤ sizeJ r := by
  intro r h
  cases r with
  | vobj fs => exact Nat.succ_le_succ (Nat.zero_le _)
  | varr xs => exact Nat.succ_le_succ (Nat.zero_le _)
  | vundefined => cases h
  | vnull => cases h
  | vbool b => cases h
  | vnum n => cases h
  | vstrN => cases h
  | vstrP p => cases h

/-- Field lookup does not exceed the total field size. -/
lemma sizeJ_getF_le : ∀ (fs : JFields) (k : String), sizeJ (getF fs k) ≤ sizeF fs
  | .fnil, _ => Nat.le_refl 0
  | .fcons k' v tl, k => by
    show sizeJ (if k' = k then v else getF tl k) ≤ sizeJ v + sizeF tl
    split
    · exact Nat.le_add_right _ _
    · exact Nat.le_trans (sizeJ_getF_le tl k) (Nat.le_add_left _ _)

/-- Property access on a record yields a strictly smaller value. -/
lemma sizeJ_getField_lt {r : JVal} (h : isRecord r = true) (k : String) :
    sizeJ (getField r k) < sizeJ r := by
  cases r with
  | vobj fs =>
    show sizeJ (getF fs k) < sizeF fs + 1
    exact Nat.lt_succ_of_le (sizeJ_getF_le fs k)
  | varr xs =>
    show sizeJ .vundefined < sizeA xs + 1
    exact Nat.succ_le_succ (Nat.zero_le _)
  | vundefined => cases h
  | vnull => cases h
  | vbool b => cases h
  | vnum n => cases h
  | vstrN => cases h
  | vstrP p => cases h

/-- An array element does not exceed the total element size. -/
lemma sizeJ_mem_toListA : ∀ (xs : JArr) (v : JVal), v ∈ toListA xs →
    sizeJ v ≤ sizeA xs
  | .anil, v, hv => by simp [toListA] at hv
  | .acons hd tl, v, hv => by
    have hv' : v = hd ∨ v ∈ toListA tl := by
      simpa [toListA] using hv
    show sizeJ v ≤ sizeJ hd + sizeA tl
    rcases hv' with hv' | hv'
    · exact hv' ▸ Nat.le_add_right _ _
    · exact Nat.le_trans (sizeJ_mem_toListA tl v hv') (Nat.le_add_left _ _)

/-- A findSome? over functions that agree on the list agrees. -/
lemma findSome?_congr {α β : Type} {f g : α → Option β} :
    ∀ l : List α, (∀ x ∈ l, f x = g x) → l.findSome? f = l.findSome? g := by
  intro l h
  induction l with
  | nil => rfl
  | cons a t ih =>
    rw [List.findSome?_cons, List.findSome?_cons, h a (by simp)]
    cases g a with
    | none => exact ih fun x hx => h x (by simp [hx])
    | some b => rfl

/-- Above the input's size, the extractor's result does not depend on the
fuel: the embedding computes the source's unbounded recursion. -/
theorem extractFuel_fuel_irrelevant (guard sniff : JVal → Bool) :
    ∀ (f1 f2 : Nat) (v : JVal), sizeJ v < f1 → sizeJ v < f2 →
      extractFuel guard sniff f1 v = extractFuel guard sniff f2 v := by
  intro f1
  induction f1 using Nat.strong_induction_on with
  | _ f1 ih =>
    intro f2 v h1 h2
    cases f1 with
    | zero => omega
    | succ a =>
      cases f2 with
      | zero => omega
      | succ b =>
        rw [extractFuel, extractFuel]
        cases hc : coerceToRecord v with
        | none => rfl
        | some record =>
          have hrs : sizeJ record ≤ sizeJ v := sizeJ_coerce_le hc
          have hrr : isRecord record = true := isRecord_of_coerce hc
          have hrpos : 1 ≤ sizeJ record := sizeJ_pos_of_isRecord hrr
          have hw : wrapperPart (fun u => extractFuel guard sniff a u) record =
              wrapperPart (fun u => extractFuel guard sniff b u) record := by
            rw [wrapperPart, wrapperPart]
            apply findSome?_congr
            intro k _
            have hlt : sizeJ (getField record k) < sizeJ record :=
              sizeJ_getField_lt hrr k
            exact ih a (by omega) b (getField record k) (by omega) (by omega)
          have hcont : contentPart (fun u => extractFuel guard sniff a u) record =
              contentPart (fun u => extractFuel guard sniff b u) record := by
            rw [contentPart, contentPart]
            cases hgf : getField record "content" with
            | varr items =>
              apply findSome?_congr
              intro item hitem
              have hisz : sizeJ item ≤ sizeA items := sizeJ_mem_toListA items item hitem
              have hclt : sizeJ (.varr items) < sizeJ record := by
                have h3 := sizeJ_getField_lt hrr "content"
                rw [hgf] at h3
                exact h3
              have hva : sizeJ (.varr items) = sizeA items + 1 := rfl
              by_cases hr : isRecord item
              · simp only [hr, if_true]
                cases ht : getField item "text" with
                | vstrP p =>
                  have hplt : sizeJ (.vstrP p) < sizeJ item := by
                    have h4 := sizeJ_getField_lt hr "text"
                    rw [ht] at h4
                    exact h4
                  have hps : sizeJ (.vstrP p) = sizeJ p + 1 := rfl
                  exact ih a (by omega) b p (by omega) (by omega)
                | vstrN =>
                  have h0 : sizeJ .vnull = 0 := rfl
                  exact ih a (by omega) b .vnull (by omega) (by omega)
                | vundefined => rfl
                | vnull => rfl
                | vbool c => rfl
                | vnum m => rfl
                | varr ys => rfl
                | vobj gs => rfl
              · simp [hr]
            | vundefined => rfl
            | vnull => rfl
            | vbool c => rfl
            | vnum m => rfl
            | vstrN => rfl
            | vstrP p => rfl
            | vobj gs => rfl
          show (match structuredPart guard record with
                | some s => some s
                | none =>
                  match wrapperPart (fun u => extractFuel guard sniff a u) record with
                  | some x => some x
                  | none =>
                    match contentPart (fun u => extractFuel guard sniff a u) record with
                    | some x => some x
                    | none =>
                      match selfPart sniff record with
                      | some r => some r
                      | none => valuesSweep sniff (ownValues record)) =
               (match structuredPart guard record with
                | some s => some s
                | none =>
                  match wrapperPart (fun u => extractFuel guard sniff b u) record with
                  | some x => some x
                  | none =>
                    match contentPart (fun u => extractFuel guard sniff b u) record with
                    | some x => some x
                    | none =>
                      match selfPart sniff record with
                      | some r => some r
                      | none => valuesSweep sniff (ownValues record))
          rw [hw, hcont]

/-! ## Bridge polling state machine

Embeds the pollBridge closure of the widget effect (SearchRoomsWidget.tsx
lines 384-405, part_001 lines 398-424).  A poll tick suspends once, awaiting
loadBridgePayload; the cancelled flag is read before the await and again after
it resumes, so a tick is a function of the flag values at those two points and
of the extraction outcome of the awaited candidates. -/

/-- MAX_BRIDGE_ATTEMPTS of the room-search variant (line 37). -/
def MAX_BRIDGE_ATTEMPTS : Nat := 80

/-- BRIDGE_POLL_INTERVAL_MS of the room-search variant (line 38). -/
def BRIDGE_POLL_INTERVAL_MS : Nat := 100

/-- MAX_BRIDGE_ATTEMPTS_FAST of the booking variant (part_001 line 28). -/
def MAX_BRIDGE_ATTEMPTS_FAST : Nat := 100

/-- BRIDGE_POLL_INTERVAL_FAST of the booking variant (part_001 line 29). -/
def BRIDGE_POLL_INTERVAL_FAST : Nat := 100

/-- MAX_BRIDGE_ATTEMPTS_SLOW of the booking variant (part_001 line 30). -/
def MAX_BRIDGE_ATTEMPTS_SLOW : Nat := 40

/-- BRIDGE_POLL_INTERVAL_SLOW of the booking variant (part_001 line 31). -/
def BRIDGE_POLL_INTERVAL_SLOW : Nat := 500

/-- Component state touched by the polling effect: the payload and loading
React state pair, the attempts counter of the effect closure, and the pending
setTimeout, recorded as the scheduled delay (some 0 stands for the immediate
pollBridge invocation made when the effect mounts). -/
structure CState where
  payload : Option JVal
  loading : Bool
  attempts : Nat
  nextPoll : Option Nat
deriving DecidableEq

/-- One pollBridge tick of the room-search variant (lines 388-405).
cancelledBefore and cancelledAfter are the values of the cancelled flag read
at the guard before the await and at the guard after it resumes; extracted is
the result of running the extractor over the bridge candidates. -/
def roomPollTick (cancelledBefore : Bool) (extracted : Option JVal)
    (cancelledAfter : Bool) (s : CState) : CState :=
  if cancelledBefore then s
  else if cancelledAfter then s
  else
    match extracted with
    | some p => { s with payload := some p, loading := false, nextPoll := none }
    | none =>
      let attempts := s.attempts + 1
      if attempts < MAX_BRIDGE_ATTEMPTS then
        { s with attempts := attempts, nextPoll := some BRIDGE_POLL_INTERVAL_MS }
      else
        { s with attempts := attempts, loading := false, nextPoll := none }

/-- One pollBridge tick of the booking variant (part_001 lines 402-424), with
its two-phase schedule: fast interval for the first attempt budget, slow
interval for the further budget, then exhaustion. -/
def bookingPollTick (cancelledBefore : Bool) (extracted : Option JVal)
    (cancelledAfter : Bool) (s : CState) : CState :=
  if cancelledBefore then s
  else if cancelledAfter then s
  else
    match extracted with
    | some p => { s with payload := some p, loading := false, nextPoll := none }
    | none =>
      let attempts := s.attempts + 1
      if attempts < MAX_BRIDGE_ATTEMPTS_FAST then
        { s with attempts := attempts, nextPoll := some BRIDGE_POLL_INTERVAL_FAST }
      else if attempts < MAX_BRIDGE_ATTEMPTS_FAST + MAX_BRIDGE_ATTEMPTS_SLOW then
        { s with attempts := attempts, nextPoll := some BRIDGE_POLL_INTERVAL_SLOW }
      else
        { s with attempts := attempts, loading := false, nextPoll := none }

/-- Effect state at mount when no bootstrap payload was found: loading, zero
attempts, the initial pollBridge call pending. -/
def pollInit : CState :=
  { payload := none, loading := true, attempts := 0, nextPoll := some 0 }

/-- Trace of the room-search polling machine against a bridge that never
yields a matching candidate and with no message resolution: state after n
scheduled ticks have fired.  A tick only fires while one is pending. -/
def roomPollAfter : Nat → CState
  | 0 => pollInit
  | n + 1 =>
    let s := roomPollAfter n
    if s.nextPoll.isSome then roomPollTick false none false s else s

/-- Trace of the booking polling machine against a never-resolving bridge. -/
def bookingPollAfter : Nat → CState
  | 0 => pollInit
  | n + 1 =>
    let s := bookingPollAfter n
    if s.nextPoll.isSome then bookingPollTick false none false s else s

/-! ## Inbound message handler -/

/-- Model of a DOM MessageEvent as far as the handler could observe it: the
data payload, the sender origin and an opaque source identifier. -/
structure MessageEv where
  data : JVal
  origin : String
  sourceId : Option Nat

/-- Embeds onMessage of the room-search variants (SearchRoomsWidget.tsx lines
407-414, part_002 lines 422-429). -/
def onMessageRoom (cancelled : Bool) (ev : MessageEv) (s : CState) : CState :=
  if cancelled then s
  else
    match extractStructuredPayload ev.data with
    | none => s
    | some p => { s with payload := some p, loading := false }

/-- Embeds onMessage of the booking variant (part_001 lines 426-432). -/
def onMessageBooking (cancelled : Bool) (ev : MessageEv) (s : CState) : CState :=
  if cancelled then s
  else
    match extractBookingPayload ev.data with
    | none => s
    | some p => { s with payload := some p, loading := false }

/-! ## Widget effect lifecycle

Embeds the mount/effect/cleanup behaviour of the widget component
(SearchRoomsWidget.tsx lines 311-426): the useEffect body attaches the
message listener and starts polling only when no payload is present, and
early-returns otherwise; its dependency array is the payload (the callback
dependency is referentially stable), so the effect is re-run, after cleaning
up the previous run, exactly when the payload changes. -/

/-- Phases of the polling state machine named by the specification: Idle when
the bootstrap reader already found a payload, Polling while the bridge is
being polled, Resolved after a payload arrived, Exhausted after the attempt
budget ran out. -/
inductive Phase where
  | idle
  | polling
  | resolved
  | exhausted
deriving DecidableEq

/-- Mounted widget state: React payload and loading state, whether the window
message listener is currently attached, and the phase of the spec's state
machine as a ghost annotation. -/
structure WidgetM where
  payload : Option JVal
  loading : Bool
  listener : Bool
  phase : Phase
deriving DecidableEq

/-- One run of the useEffect body (lines 378-426): with a payload present it
only ends loading and returns early, attaching nothing; otherwise it attaches
the message listener and kicks off pollBridge. -/
def effectRun (s : WidgetM) : WidgetM :=
  if s.payload.isSome then { s with loading := false }
  else { s with listener := true }

/-- Cleanup of the previous effect run (lines 419-425): sets the cancelled
flag, clears the pending timer and removes the message listener. -/
def effectCleanup (s : WidgetM) : WidgetM :=
  { s with listener := false }

/-- Mounting the widget: the useState initializer runs the bootstrap source
reader, whose result boot seeds payload and loading (lines 311-318); then the
effect body runs once. -/
def mountW (boot : Option JVal) : WidgetM :=
  effectRun
    { payload := boot
      loading := boot.isNone
      listener := false
      phase := if boot.isSome then Phase.idle else Phase.polling }

/-- A payload resolution (successful poll tick lines 393-397, or message
handler lines 407-414) while the effect from a payload-free render is live:
sets payload and ends loading; the payload dependency change then makes React
clean up that effect and re-run the body, which early-returns. -/
def resolveStep (s : WidgetM) (p : JVal) : WidgetM :=
  effectRun
    { (effectCleanup s) with
        payload := some p
        loading := false
        phase := Phase.resolved }

/-- Attempt-budget exhaustion (lines 399-404): only loading changes; payload
is unchanged, so the effect is not re-run and the listener stays attached. -/
def exhaustStep (s : WidgetM) : WidgetM :=
  { s with loading := false, phase := Phase.exhausted }

/-- Reachable mounted widget states: a mount with any bootstrap outcome,
resolution while polling, resolution from exhaustion (the listener of the
original effect is still attached then), and exhaustion while polling. -/
inductive ReachableW : WidgetM → Prop where
  | mount (boot : Option JVal) : ReachableW (mountW boot)
  | resolvePolling (s : WidgetM) (p : JVal) : ReachableW s → s.phase = Phase.polling →
      ReachableW (resolveStep s p)
  | resolveExhausted (s : WidgetM) (p : JVal) : ReachableW s → s.phase = Phase.exhausted →
      ReachableW (resolveStep s p)
  | exhaust (s : WidgetM) : ReachableW s → s.phase = Phase.polling →
      ReachableW (exhaustStep s)

/-! ## Bridge candidate harvesting

Embeds loadBridgePayload's addCandidate (SearchRoomsWidget.tsx lines 328-360,
part_001 lines 351-383).  The seen set is a JavaScript Set, whose membership
test is SameValueZero: reference identity for objects and arrays, value
identity for primitives.  Runtime values are therefore modelled with an
explicit reference for objects. -/

/-- A runtime value as an element of the candidate set: undefined, a
primitive compared by value, or an object reference with its structural
shape, compared by reference. -/
inductive RtVal where
  | undefRt : RtVal
  | primRt : JVal → RtVal
  | objRt : Nat → JVal → RtVal
deriving DecidableEq

/-- SameValueZero, the equality of JavaScript Set membership. -/
def sameValueZero : RtVal → RtVal → Bool
  | .undefRt, .undefRt => true
  | .primRt a, .primRt b => a == b
  | .objRt i _, .objRt j _ => i == j
  | _, _ => false

/-- Embeds addCandidate (lines 332-337): skip undefined, skip values already
seen, otherwise retain.  Since every retained value is also added to the seen
set and nothing else is, the seen set is exactly the retained list. -/
def addCandidate (acc : List RtVal) (v : RtVal) : List RtVal :=
  match v with
  | .undefRt => acc
  | _ => if acc.any (fun w => sameValueZero w v) then acc else acc ++ [v]

/-- The candidate sequence harvested from one poll of the bridge, in
collection order. -/
def collectCandidates (vs : List RtVal) : List RtVal :=
  vs.foldl addCandidate []

/-! ## Selection action relay

Embeds onBookNow of the room-search widgets (SearchRoomsWidget.tsx lines
463-489; part_002 lines 505-552 computes the identical property id chain
before its callTool invocation).  Only the fields consulted by onBookNow are
modelled; the remaining fields of the source types are presentational. -/

/-- Fields of a SearchRoom consulted by onBookNow (openai.d.ts). -/
structure SearchRoom where
  id : String
  name : String
  property_id : Option String
deriving DecidableEq

/-- Fields of a SearchHotel consulted by onBookNow (openai.d.ts). -/
structure SearchHotel where
  property_id : Option String
  property_name : Option String
deriving DecidableEq

/-- Fields of the room-search payload consulted by onBookNow (openai.d.ts).
Absent optional fields are none. -/
structure SearchRoomsPayload where
  property_id : Option String
  property_name : Option String
  hotels : Option (List SearchHotel)
deriving DecidableEq

/-- The detail record dispatched on selection through the custom event and
the cross-frame message. -/
structure RoomSelectDetail where
  room_id : String
  room_name : String
  property_id : Option String
deriving DecidableEq

/-- The first hotel's property id, when a hotel list with a first element
carrying one is present. -/
def firstHotelPropertyId (payload : Option SearchRoomsPayload) : Option String :=
  ((payload.bind SearchRoomsPayload.hotels).bind List.head?).bind SearchHotel.property_id

/-- The payload-level property id. -/
def payloadPropertyId (payload : Option SearchRoomsPayload) : Option String :=
  payload.bind SearchRoomsPayload.property_id

/-- Embeds the detail record built by onBookNow (lines 466-474): the property
id is the nullish-coalescing chain over the room's own id, the payload-level
id and the first hotel's id. -/
def onBookNowDetail (room : SearchRoom) (payload : Option SearchRoomsPayload) :
    RoomSelectDetail :=
  { room_id := room.id
    room_name := room.name
    property_id :=
      (room.property_id.orElse fun _ =>
        (payloadPropertyId payload).orElse fun _ =>
          firstHotelPropertyId payload) }

/-! ## Theorems for the claims -/

/-- C5: for the input with rooms nested under result and output, the
room-search extractor returns the inner record with the rooms key; the
wrapper-key sweep recurses in fixed priority order and stops at the first
layer that passes the schema sniffer. -/
theorem c5_nested_wrapper_extraction :
    extractStructuredPayload
      (jobj [("result", jobj [("output", jobj [("rooms", jarr [])])])]) =
      some (jobj [("rooms", jarr [])]) := by decide

/-- C2 counterexample: a string encoding the JSON array with elements 1 and 2
is coerced to a record (the array itself), because the source's isRecord test
accepts arrays; the claim states such a string never yields a CoercedRecord. -/
theorem c2_string_array_coercible_cex :
    coerceToRecord (.vstrP (jarr [.vnum 1, .vnum 2])) =
      some (jarr [.vnum 1, .vnum 2]) := by decide

/-- C2 amended: a parse failure is not coercible and never throws, and a
parsed top-level number, boolean, null or string is not coercible, but a
parsed top-level array is coercible and is returned as the record, since the
JavaScript object test accepts arrays. -/
theorem c2_coerceToRecord_amended :
    ∀ (n : Int) (b : Bool) (xs : JArr) (p : Option JVal),
      coerceToRecord .vstrN = none ∧
      coerceToRecord (.vstrP (.vnum n)) = none ∧
      coerceToRecord (.vstrP (.vbool b)) = none ∧
      coerceToRecord (.vstrP .vnull) = none ∧
      coerceToRecord (.vstrP .vstrN) = none ∧
      coerceToRecord (.vstrP (.vstrP (p.getD .vnull))) = none ∧
      coerceToRecord (.vnum n) = none ∧
      coerceToRecord (.vbool b) = none ∧
      coerceToRecord .vundefined = none ∧
      coerceToRecord (.vstrP (.varr xs)) = some (.varr xs) := by
  intro n b xs p
  refine ⟨rfl, rfl, rfl, rfl, rfl, rfl, rfl, rfl, rfl, rfl⟩

/-- C1 counterexample: the room-search extractor returns a coerced
structuredContent record that fails the room-search schema sniffer, so the
coerced structuredContent is not returned "only if it passes the Schema
Sniffer" in the room-search variant. -/
theorem c1_structured_unsniffed_cex :
    extractStructuredPayload (jobj [("structuredContent", jobj [("foo", .vnum 1)])]) =
      some (jobj [("foo", .vnum 1)]) ∧
    hasSearchRoomsData (jobj [("foo", .vnum 1)]) = false := by decide

/-- C1 amended: when the record has a structuredContent field that coerces to
a record, the room-search extractor returns the coerced record directly and
unconditionally, with no sniffer check; the booking extractor returns it
directly exactly when hasBookingData holds of it, and when hasBookingData
fails its result is exactly the result of the later steps of the algorithm
(wrapper-key sweep, content sweep, self sniff, values sweep) on the record:
the guard filters the fast path and the extractor falls through. -/
theorem c1_structured_fastpath_amended :
    ∀ (v record sc : JVal),
      coerceToRecord v = some record →
      coerceToRecord (getField record "structuredContent") = some sc →
      extractStructuredPayload v = some sc ∧
        (hasBookingData sc = true → extractBookingPayload v = some sc) ∧
        (hasBookingData sc = false →
          extractBookingPayload v =
            (match wrapperPart
                (fun u => extractFuel hasBookingData hasBookingData (sizeJ v) u)
                record with
             | some x => some x
             | none =>
               match contentPart
                   (fun u => extractFuel hasBookingData hasBookingData (sizeJ v) u)
                   record with
               | some x => some x
               | none =>
                 match selfPart hasBookingData record with
                 | some r => some r
                 | none => valuesSweep hasBookingData (ownValues record))) := by
  intro v record sc h1 h2
  refine ⟨?_, ?_, ?_⟩
  · show extractFuel alwaysTrue hasSearchRoomsData (sizeJ v + 1) v = some sc
    simp [extractFuel, h1, structuredPart, h2, alwaysTrue]
  · intro hg
    show extractFuel hasBookingData hasBookingData (sizeJ v + 1) v = some sc
    simp [extractFuel, h1, structuredPart, h2, hg]
  · intro hg
    have hsp : structuredPart hasBookingData record = none := by
      rw [structuredPart, h2]
      show (if hasBookingData sc = true then some sc else none) = none
      rw [hg]
      simp
    show extractFuel hasBookingData hasBookingData (sizeJ v + 1) v = _
    rw [extractFuel, h1]
    show (match structuredPart hasBookingData record with
          | some s => some s
          | none =>
            match wrapperPart
                (fun u => extractFuel hasBookingData hasBookingData (sizeJ v) u)
                record with
            | some x => some x
            | none =>
              match contentPart
                  (fun u => extractFuel hasBookingData hasBookingData (sizeJ v) u)
                  record with
              | some x => some x
              | none =>
                match selfPart hasBookingData record with
                | some r => some r
                | none => valuesSweep hasBookingData (ownValues record)) = _
    rw [hsp]

/-- C1 amended, witness: a structuredContent carrying a booking_id is
returned directly by both extractors, while a structuredContent without
booking data is still returned by the room-search extractor but filtered by
the booking guard, whose fall-through then yields nothing on this input. -/
theorem c1_structured_fastpath_amended_witness :
    extractStructuredPayload
        (jobj [("structuredContent", jobj [("booking_id", .vstrN)])]) =
      some (jobj [("booking_id", .vstrN)]) ∧
    extractBookingPayload
        (jobj [("structuredContent", jobj [("booking_id", .vstrN)])]) =
      some (jobj [("booking_id", .vstrN)]) ∧
    extractStructuredPayload
        (jobj [("structuredContent", jobj [("foo", .vnum 1)])]) =
      some (jobj [("foo", .vnum 1)]) ∧
    extractBookingPayload
        (jobj [("structuredContent", jobj [("foo", .vnum 1)])]) = none :=
  ⟨(c1_structured_fastpath_amended
      (jobj [("structuredContent", jobj [("booking_id", .vstrN)])])
      (jobj [("structuredContent", jobj [("booking_id", .vstrN)])])
      (jobj [("booking_id", .vstrN)]) (by decide) (by decide)).1,
   (c1_structured_fastpath_amended
      (jobj [("structuredContent", jobj [("booking_id", .vstrN)])])
      (jobj [("structuredContent", jobj [("booking_id", .vstrN)])])
      (jobj [("booking_id", .vstrN)]) (by decide) (by decide)).2.1 (by decide),
   (c1_structured_fastpath_amended
      (jobj [("structuredContent", jobj [("foo", .vnum 1)])])
      (jobj [("structuredContent", jobj [("foo", .vnum 1)])])
      (jobj [("foo", .vnum 1)]) (by decide) (by decide)).1,
   Eq.trans
     ((c1_structured_fastpath_amended
        (jobj [("structuredContent", jobj [("foo", .vnum 1)])])
        (jobj [("structuredContent", jobj [("foo", .vnum 1)])])
        (jobj [("foo", .vnum 1)]) (by decide) (by decide)).2.2 (by decide))
     (by decide)⟩

/-- C6: in both widget variants, when the cancelled flag is observed true at
the guard after the bridge await resumes, the poll tick leaves the component
state unchanged, whatever the await produced; payload and loading are in
particular untouched. -/
theorem c6_cancelled_guard :
    ∀ (cancelledBefore : Bool) (extracted : Option JVal) (s : CState),
      roomPollTick cancelledBefore extracted true s = s ∧
      bookingPollTick cancelledBefore extracted true s = s := by
  intro cb e s
  cases cb <;> exact ⟨rfl, rfl⟩

/-- C8: deduplication of harvested bridge candidates is by reference
identity, not value equality: two candidates with identical structure but
distinct references are both retained, in order, while a repeated reference
is dropped. -/
theorem c8_reference_identity_dedup :
    ∀ (i j : Nat) (shape : JVal), i ≠ j →
      collectCandidates [.objRt i shape, .objRt j shape] =
        [.objRt i shape, .objRt j shape] ∧
      collectCandidates [.objRt i shape, .objRt i shape] = [.objRt i shape] := by
  intro i j shape hij
  constructor
  · simp [collectCandidates, addCandidate, sameValueZero, hij]
  · simp [collectCandidates, addCandidate, sameValueZero]

/-- C8 witness: two structurally identical empty objects at distinct
references are both retained. -/
theorem c8_reference_identity_dedup_witness :
    collectCandidates [.objRt 0 (jobj []), .objRt 1 (jobj [])] =
      [.objRt 0 (jobj []), .objRt 1 (jobj [])] :=
  (c8_reference_identity_dedup 0 1 (jobj []) (by decide)).1

/-- C9: the derived property id in the emitted detail record follows the
fixed fallback chain, for all combinations of presence and absence of the
three sources: the item's own property id wins, otherwise the payload-level
property id, otherwise the first hotel's property id, otherwise nothing. -/
theorem c9_property_id_fallback_chain :
    ∀ (room : SearchRoom) (payload : Option SearchRoomsPayload),
      (onBookNowDetail room payload).room_id = room.id ∧
      (onBookNowDetail room payload).room_name = room.name ∧
      (∀ x, room.property_id = some x →
        (onBookNowDetail room payload).property_id = some x) ∧
      (room.property_id = none → ∀ y, payloadPropertyId payload = some y →
        (onBookNowDetail room payload).property_id = some y) ∧
      (room.property_id = none → payloadPropertyId payload = none →
        ∀ z, firstHotelPropertyId payload = some z →
        (onBookNowDetail room payload).property_id = some z) ∧
      (room.property_id = none → payloadPropertyId payload = none →
        firstHotelPropertyId payload = none →
        (onBookNowDetail room payload).property_id = none) := by
  intro room payload
  refine ⟨rfl, rfl, ?_, ?_, ?_, ?_⟩
  · intro x hx
    simp [onBookNowDetail, hx, Option.orElse]
  · intro hr y hy
    simp [onBookNowDetail, hr, hy, Option.orElse]
  · intro hr hp z hz
    simp [onBookNowDetail, hr, hp, hz, Option.orElse]
  · intro hr hp hh
    simp [onBookNowDetail, hr, hp, hh, Option.orElse]

/-- C9 witness: a room without its own property id, a payload without a
top-level property id, and a first hotel carrying one; the hotel id is
emitted. -/
theorem c9_property_id_fallback_chain_witness :
    (onBookNowDetail ⟨"room-1", "Garden Room", none⟩
        (some ⟨none, none, some [⟨some "hotel-9", some "Resort"⟩]⟩)).property_id =
      some "hotel-9" :=
  (c9_property_id_fallback_chain ⟨"room-1", "Garden Room", none⟩
      (some ⟨none, none, some [⟨some "hotel-9", some "Resort"⟩]⟩)).2.2.2.2.1
    rfl rfl "hotel-9" rfl

/-- C10: the inbound message handlers' effect depends only on the event's
data: two message events with identical data but different origins and
sources produce identical state transitions in every variant; and with the
cancelled flag unset, a payload-shaped message resolves the displayed payload
and ends loading, with no origin filtering. -/
theorem c10_onmessage_origin_independent :
    ∀ (cancelled : Bool) (e1 e2 : MessageEv) (s : CState),
      e1.data = e2.data →
      (onMessageRoom cancelled e1 s = onMessageRoom cancelled e2 s ∧
        onMessageBooking cancelled e1 s = onMessageBooking cancelled e2 s) ∧
      (∀ p, extractStructuredPayload e1.data = some p →
        (onMessageRoom false e1 s).payload = some p ∧
        (onMessageRoom false e1 s).loading = false) := by
  intro c e1 e2 s hdata
  refine ⟨⟨?_, ?_⟩, ?_⟩
  · simp [onMessageRoom, hdata]
  · simp [onMessageBooking, hdata]
  · intro p hp
    simp [onMessageRoom, hp]

/-- C10 witness: two events with the same payload-shaped data from different
origins and sources transition identically, and the payload resolves. -/
theorem c10_onmessage_origin_independent_witness :
    onMessageRoom false ⟨jobj [("rooms", jarr [])], "https://host-a.example", some 7⟩ pollInit =
      onMessageRoom false ⟨jobj [("rooms", jarr [])], "https://host-b.example", none⟩ pollInit ∧
    (onMessageRoom false ⟨jobj [("rooms", jarr [])], "https://host-a.example", some 7⟩
        pollInit).payload = some (jobj [("rooms", jarr [])]) :=
  ⟨(c10_onmessage_origin_independent false
      ⟨jobj [("rooms", jarr [])], "https://host-a.example", some 7⟩
      ⟨jobj [("rooms", jarr [])], "https://host-b.example", none⟩ pollInit rfl).1.1,
   ((c10_onmessage_origin_independent false
      ⟨jobj [("rooms", jarr [])], "https://host-a.example", some 7⟩
      ⟨jobj [("rooms", jarr [])], "https://host-b.example", none⟩ pollInit rfl).2
      (jobj [("rooms", jarr [])]) (by decide)).1⟩

set_option maxRecDepth 100000

/-- Helper: once the room-search attempt budget is exhausted no tick is
pending, so the trace is a fixed point from step 80 on. -/
lemma roomPollAfter_fixed :
    ∀ n, roomPollAfter (80 + n) =
      { payload := none, loading := false, attempts := 80, nextPoll := none } := by
  intro n
  induction n with
  | zero => decide
  | succ m ih =>
    show roomPollAfter (80 + m + 1) = _
    simp [roomPollAfter, ih]

/-- Helper: the room-search attempt counter never exceeds its budget. -/
lemma roomPollAfter_attempts_le : ∀ n, (roomPollAfter n).attempts ≤ 80 := by
  intro n
  rcases Nat.lt_or_ge n 80 with h | h
  · have hb : ∀ k, k < 80 → (roomPollAfter k).attempts ≤ 80 := by decide
    exact hb n h
  · obtain ⟨m, rfl⟩ := Nat.exists_eq_add_of_le h
    rw [roomPollAfter_fixed]

/-- Helper: the booking trace is a fixed point from step 140 on. -/
lemma bookingPollAfter_fixed :
    ∀ n, bookingPollAfter (140 + n) =
      { payload := none, loading := false, attempts := 140, nextPoll := none } := by
  intro n
  induction n with
  | zero => decide
  | succ m ih =>
    show bookingPollAfter (140 + m + 1) = _
    simp [bookingPollAfter, ih]

/-- Helper: the booking attempt counter never exceeds its total budget. -/
lemma bookingPollAfter_attempts_le : ∀ n, (bookingPollAfter n).attempts ≤ 140 := by
  intro n
  rcases Nat.lt_or_ge n 140 with h | h
  · have hb : ∀ k, k < 140 → (bookingPollAfter k).attempts ≤ 140 := by decide
    exact hb n h
  · obtain ⟨m, rfl⟩ := Nat.exists_eq_add_of_le h
    rw [bookingPollAfter_fixed]

/-- C3: against a never-resolving bridge with no message resolution, the
room-search machine is still loading with a tick pending before attempt 80
and reaches exhaustion with loading ended exactly at attempt 80, never
exceeding it; the booking machine likewise exhausts exactly at attempt 140
(100 fast-interval attempts then 40 slow-interval attempts), never exceeding
it, scheduling the fast interval through attempt 99 and the slow interval
from attempt 100 through 139. -/
theorem c3_poll_exhaustion :
    ((roomPollAfter 80).loading = false ∧ (roomPollAfter 80).attempts = 80 ∧
      (roomPollAfter 80).nextPoll = none) ∧
    (∀ k, k < 80 →
      (roomPollAfter k).loading = true ∧ (roomPollAfter k).nextPoll.isSome = true) ∧
    (∀ n, (roomPollAfter n).attempts ≤ 80) ∧
    ((bookingPollAfter 140).loading = false ∧ (bookingPollAfter 140).attempts = 140 ∧
      (bookingPollAfter 140).nextPoll = none) ∧
    (∀ k, k < 140 →
      (bookingPollAfter k).loading = true ∧ (bookingPollAfter k).nextPoll.isSome = true) ∧
    (∀ n, (bookingPollAfter n).attempts ≤ 140) ∧
    (∀ k, k < 99 →
      (bookingPollAfter (k + 1)).nextPoll = some BRIDGE_POLL_INTERVAL_FAST) ∧
    (∀ k, k < 40 →
      (bookingPollAfter (100 + k)).nextPoll = some BRIDGE_POLL_INTERVAL_SLOW) := by
  refine ⟨by decide, by decide, roomPollAfter_attempts_le, by decide, by decide,
    bookingPollAfter_attempts_le, by decide, by decide⟩

/-- C3 witness: sampled points of the two traces. -/
theorem c3_poll_exhaustion_witness :
    (roomPollAfter 79).loading = true ∧ (roomPollAfter 200).attempts ≤ 80 ∧
    (bookingPollAfter 139).loading = true ∧ (bookingPollAfter 150).attempts ≤ 140 ∧
    (bookingPollAfter 50).nextPoll = some BRIDGE_POLL_INTERVAL_FAST ∧
    (bookingPollAfter 120).nextPoll = some BRIDGE_POLL_INTERVAL_SLOW :=
  ⟨(c3_poll_exhaustion.2.1 79 (by decide)).1,
   c3_poll_exhaustion.2.2.1 200,
   (c3_poll_exhaustion.2.2.2.2.1 139 (by decide)).1,
   c3_poll_exhaustion.2.2.2.2.2.1 150,
   c3_poll_exhaustion.2.2.2.2.2.2.1 49 (by decide),
   c3_poll_exhaustion.2.2.2.2.2.2.2 20 (by decide)⟩

/-- C4 counterexample: a mount whose bootstrap reader found a payload is a
reachable mounted state (the spec's Idle phase), and the message listener is
not attached there: the effect body early-returns before addEventListener
whenever a payload is already present. -/
theorem c4_listener_idle_cex :
    ReachableW (mountW (some (jobj [("rooms", jarr [])]))) ∧
    (mountW (some (jobj [("rooms", jarr [])]))).listener = false :=
  ⟨ReachableW.mount _, by decide⟩

/-- C4 amended: across all reachable mounted states, the message listener is
attached exactly in the Polling and Exhausted phases; in Idle (bootstrap
payload present at mount) and Resolved (payload arrived) the effect has
early-returned without attaching, or its cleanup has removed the listener. -/
theorem c4_listener_phases_amended :
    ∀ s : WidgetM, ReachableW s →
      (s.listener = true ↔ (s.phase = Phase.polling ∨ s.phase = Phase.exhausted)) := by
  intro s h
  induction h with
  | mount boot => cases boot <;> simp [mountW, effectRun]
  | resolvePolling s p hr hp ih => simp [resolveStep, effectRun, effectCleanup]
  | resolveExhausted s p hr hp ih => simp [resolveStep, effectRun, effectCleanup]
  | exhaust s hr hp ih =>
    have hl : (exhaustStep s).listener = s.listener := rfl
    have hph : (exhaustStep s).phase = Phase.exhausted := rfl
    rw [hl, hph]
    simp only [or_true, iff_true]
    exact ih.mpr (Or.inl hp)

/-- C4 amended, witness: a mount with no bootstrap payload is in the Polling
phase and the listener is attached. -/
theorem c4_listener_phases_amended_witness :
    (mountW none).listener = true :=
  (c4_listener_phases_amended (mountW none) (ReachableW.mount none)).mpr
    (Or.inl (by decide))

/-! ## Absence of recognized keys

A predicate stating that none of a given list of field names occurs as an
object key anywhere in a value's JSON-reachable structure, including inside
strings that parse as JSON (the extractor parses such strings, so their
contents are part of the searched structure). -/

mutual

/-- No key from bad occurs anywhere in the value. -/
def avoidKeysJ (bad : List String) : JVal → Bool
  | .vobj fs => avoidKeysF bad fs
  | .varr xs => avoidKeysA bad xs
  | .vstrP p => avoidKeysJ bad p
  | _ => true

/-- No key from bad occurs in any element. -/
def avoidKeysA (bad : List String) : JArr → Bool
  | .anil => true
  | .acons h t => avoidKeysJ bad h && avoidKeysA bad t

/-- No field name is in bad, and no key from bad occurs in any field value. -/
def avoidKeysF (bad : List String) : JFields → Bool
  | .fnil => true
  | .fcons k v t => !(bad.contains k) && avoidKeysJ bad v && avoidKeysF bad t

end

/-- The recognized keys of the room-search schema (section 4.2 of the spec,
hasSearchRoomsData in the source). -/
def rsRecognizedKeys : List String :=
  ["rooms", "hotels", "count", "property_name", "error"]

/-- The room-search recognized keys together with structuredContent, whose
coerced value the room-search extractor returns unconditionally. -/
def rsBadKeys : List String := "structuredContent" :: rsRecognizedKeys

/-- The recognized keys of the booking schema (hasBookingData in the
source). -/
def bookingRecognizedKeys : List String :=
  ["booking_id", "status", "total", "check_in"]

/-- Coercion sends a key-avoiding value to a key-avoiding record. -/
lemma avoid_coerce {bad : List String} :
    ∀ {v r : JVal}, avoidKeysJ bad v = true → coerceToRecord v = some r →
      avoidKeysJ bad r = true := by
  intro v r hv hc
  cases v with
  | vobj fs =>
    have : (.vobj fs : JVal) = r := by simpa [coerceToRecord] using hc
    exact this ▸ hv
  | varr xs =>
    have : (.varr xs : JVal) = r := by simpa [coerceToRecord] using hc
    exact this ▸ hv
  | vstrP p =>
    rw [show coerceToRecord (.vstrP p) =
        (if isRecord p then some p else none) from rfl] at hc
    by_cases hp : isRecord p
    · rw [if_pos hp] at hc
      have : p = r := by simpa using hc
      exact this ▸ hv
    · rw [if_neg hp] at hc
      exact absurd hc (by simp)
  | vundefined => exact absurd hc (by simp [coerceToRecord])
  | vnull => exact absurd hc (by simp [coerceToRecord])
  | vbool b => exact absurd hc (by simp [coerceToRecord])
  | vnum n => exact absurd hc (by simp [coerceToRecord])
  | vstrN => exact absurd hc (by simp [coerceToRecord])

/-- Field lookup in key-avoiding fields yields a key-avoiding value. -/
lemma avoid_getF {bad : List String} :
    ∀ (fs : JFields) (k : String), avoidKeysF bad fs = true →
      avoidKeysJ bad (getF fs k) = true
  | .fnil, _, _ => rfl
  | .fcons k' v tl, k, h => by
    obtain ⟨⟨-, hv2⟩, htl⟩ :
        (bad.contains k' = false ∧ avoidKeysJ bad v = true) ∧
          avoidKeysF bad tl = true := by
      simpa [Bool.and_eq_true] using
        (show (!(bad.contains k') && avoidKeysJ bad v && avoidKeysF bad tl) = true from h)
    show avoidKeysJ bad (if k' = k then v else getF tl k) = true
    split
    · exact hv2
    · exact avoid_getF tl k htl

/-- Property access on a key-avoiding record yields a key-avoiding value. -/
lemma avoid_getField {bad : List String} {record : JVal}
    (h : avoidKeysJ bad record = true) (k : String) :
    avoidKeysJ bad (getField record k) = true := by
  cases record with
  | vobj fs => exact avoid_getF fs k h
  | vundefined => rfl
  | vnull => rfl
  | vbool b => rfl
  | vnum n => rfl
  | vstrN => rfl
  | vstrP p => rfl
  | varr xs => rfl

/-- A bad key is not an own property of key-avoiding fields. -/
lemma avoid_hasF_false {bad : List String} :
    ∀ (fs : JFields) (k : String), avoidKeysF bad fs = true →
      bad.contains k = true → hasF fs k = false
  | .fnil, _, _, _ => rfl
  | .fcons k' v tl, k, h, hk => by
    obtain ⟨⟨hk', -⟩, htl⟩ :
        (bad.contains k' = false ∧ avoidKeysJ bad v = true) ∧
          avoidKeysF bad tl = true := by
      simpa [Bool.and_eq_true] using
        (show (!(bad.contains k') && avoidKeysJ bad v && avoidKeysF bad tl) = true from h)
    have hne : ¬ (k' = k) := by
      intro heq
      rw [heq, hk] at hk'
      cases hk'
    show (decide (k' = k) || hasF tl k) = false
    rw [decide_eq_false hne, Bool.false_or]
    exact avoid_hasF_false tl k htl hk

/-- A bad key is not an own property of a key-avoiding record. -/
lemma avoid_hasOwnKey_false {bad : List String} {record : JVal}
    (h : avoidKeysJ bad record = true) {k : String} (hk : bad.contains k = true) :
    hasOwnKey record k = false := by
  cases record with
  | vobj fs => exact avoid_hasF_false fs k h hk
  | vundefined => rfl
  | vnull => rfl
  | vbool b => rfl
  | vnum n => rfl
  | vstrN => rfl
  | vstrP p => rfl
  | varr xs => rfl

/-- Lookup of a bad key in key-avoiding fields yields undefined. -/
lemma avoid_getF_bad {bad : List String} :
    ∀ (fs : JFields) (k : String), avoidKeysF bad fs = true →
      bad.contains k = true → getF fs k = .vundefined
  | .fnil, _, _, _ => rfl
  | .fcons k' v tl, k, h, hk => by
    obtain ⟨⟨hk', -⟩, htl⟩ :
        (bad.contains k' = false ∧ avoidKeysJ bad v = true) ∧
          avoidKeysF bad tl = true := by
      simpa [Bool.and_eq_true] using
        (show (!(bad.contains k') && avoidKeysJ bad v && avoidKeysF bad tl) = true from h)
    show (if k' = k then v else getF tl k) = .vundefined
    split
    · rename_i heq
      rw [heq, hk] at hk'
      cases hk'
    · exact avoid_getF_bad tl k htl hk

/-- Access of a bad key on a key-avoiding record yields undefined. -/
lemma avoid_getField_bad {bad : List String} {record : JVal}
    (h : avoidKeysJ bad record = true) {k : String} (hk : bad.contains k = true) :
    getField record k = .vundefined := by
  cases record with
  | vobj fs => exact avoid_getF_bad fs k h hk
  | vundefined => rfl
  | vnull => rfl
  | vbool b => rfl
  | vnum n => rfl
  | vstrN => rfl
  | vstrP p => rfl
  | varr xs => rfl

/-- Elements of a key-avoiding array are key-avoiding. -/
lemma avoid_toListA {bad : List String} :
    ∀ (xs : JArr), avoidKeysA bad xs = true →
      ∀ v ∈ toListA xs, avoidKeysJ bad v = true
  | .anil, _, v, hv => by simp [toListA] at hv
  | .acons hd tl, h, v, hv => by
    obtain ⟨hh, ht⟩ : avoidKeysJ bad hd = true ∧ avoidKeysA bad tl = true := by
      simpa [Bool.and_eq_true] using
        (show (avoidKeysJ bad hd && avoidKeysA bad tl) = true from h)
    have hv' : v = hd ∨ v ∈ toListA tl := by
      simpa [toListA] using hv
    rcases hv' with hv' | hv'
    · exact hv' ▸ hh
    · exact avoid_toListA tl ht v hv'

/-- Field values of key-avoiding fields are key-avoiding. -/
lemma avoid_valuesF {bad : List String} :
    ∀ (fs : JFields), avoidKeysF bad fs = true →
      ∀ v ∈ valuesF fs, avoidKeysJ bad v = true
  | .fnil, _, v, hv => by simp [valuesF] at hv
  | .fcons k w tl, h, v, hv => by
    obtain ⟨⟨-, hw⟩, ht⟩ :
        (bad.contains k = false ∧ avoidKeysJ bad w = true) ∧
          avoidKeysF bad tl = true := by
      simpa [Bool.and_eq_true] using
        (show (!(bad.contains k) && avoidKeysJ bad w && avoidKeysF bad tl) = true from h)
    have hv' : v = w ∨ v ∈ valuesF tl := by
      simpa [valuesF] using hv
    rcases hv' with hv' | hv'
    · exact hv' ▸ hw
    · exact avoid_valuesF tl ht v hv'

/-- Own values of a key-avoiding record are key-avoiding. -/
lemma avoid_ownValues {bad : List String} {record : JVal}
    (h : avoidKeysJ bad record = true) :
    ∀ v ∈ ownValues record, avoidKeysJ bad v = true := by
  intro v hv
  cases record with
  | vobj fs => exact avoid_valuesF fs h v hv
  | varr xs => exact avoid_toListA xs h v hv
  | vundefined => simp [ownValues] at hv
  | vnull => simp [ownValues] at hv
  | vbool b => simp [ownValues] at hv
  | vnum n => simp [ownValues] at hv
  | vstrN => simp [ownValues] at hv
  | vstrP p => simp [ownValues] at hv

/-- A findSome? whose function yields none on every element yields none. -/
lemma findSome?_none_of {α β : Type} (f : α → Option β) :
    ∀ l : List α, (∀ x ∈ l, f x = none) → l.findSome? f = none := by
  intro l h
  induction l with
  | nil => rfl
  | cons a t ih =>
    have ha : f a = none := h a (by simp)
    rw [List.findSome?_cons, ha]
    exact ih fun x hx => h x (by simp [hx])

/-- The values sweep yields nothing when the sniffer rejects every
key-avoiding record and all listed values are key-avoiding. -/
lemma valuesSweep_none {bad : List String} {sniff : JVal → Bool}
    (hs : ∀ r, avoidKeysJ bad r = true → sniff r = false) :
    ∀ l : List JVal, (∀ v ∈ l, avoidKeysJ bad v = true) →
      valuesSweep sniff l = none := by
  intro l h
  induction l with
  | nil => rfl
  | cons v rest ih =>
    rw [valuesSweep]
    cases hc : coerceToRecord v with
    | none => exact ih fun w hw => h w (by simp [hw])
    | some nested =>
      have hsn := hs nested (avoid_coerce (h v (by simp)) hc)
      show (if sniff nested = true then some nested else valuesSweep sniff rest) = none
      rw [hsn]
      simp only [Bool.false_eq_true, if_false]
      exact ih fun w hw => h w (by simp [hw])

/-- The structuredContent step yields nothing on a key-avoiding record when
the guard rejects whatever a key-avoiding record's structuredContent coerces
to. -/
lemma structuredPart_none {bad : List String} {guard : JVal → Bool}
    (hguard : ∀ record s, avoidKeysJ bad record = true →
      coerceToRecord (getField record "structuredContent") = some s →
      guard s = false)
    {record : JVal} (hrec : avoidKeysJ bad record = true) :
    structuredPart guard record = none := by
  rw [structuredPart]
  cases hsc : coerceToRecord (getField record "structuredContent") with
  | none => rfl
  | some s => simp [hguard record s hrec hsc]

/-- The wrapper-key sweep yields nothing on a key-avoiding record when the
recursive extractor yields nothing on key-avoiding values. -/
lemma wrapperPart_none {bad : List String} {ex : JVal → Option JVal}
    (hex : ∀ u, avoidKeysJ bad u = true → ex u = none)
    {record : JVal} (hrec : avoidKeysJ bad record = true) :
    wrapperPart ex record = none := by
  rw [wrapperPart]
  exact findSome?_none_of _ _ fun k _ => hex _ (avoid_getField hrec k)

/-- The content sweep yields nothing on a key-avoiding record when the
recursive extractor yields nothing on key-avoiding values. -/
lemma contentPart_none {bad : List String} {ex : JVal → Option JVal}
    (hex : ∀ u, avoidKeysJ bad u = true → ex u = none)
    {record : JVal} (hrec : avoidKeysJ bad record = true) :
    contentPart ex record = none := by
  rw [contentPart]
  cases hgf : getField record "content" with
  | varr items =>
    have hia : avoidKeysA bad items = true := by
      have h2 := avoid_getField hrec "content"
      rw [hgf] at h2
      exact h2
    apply findSome?_none_of
    intro item hitem
    have hitem' : avoidKeysJ bad item = true := avoid_toListA items hia item hitem
    by_cases hr : isRecord item
    · simp only [hr, if_true]
      cases ht : getField item "text" with
      | vstrP p =>
        have hp : avoidKeysJ bad p = true := by
          have h3 := avoid_getField hitem' "text"
          rw [ht] at h3
          exact h3
        exact hex p hp
      | vstrN => exact hex .vnull rfl
      | vundefined => rfl
      | vnull => rfl
      | vbool b => rfl
      | vnum n => rfl
      | varr ys => rfl
      | vobj gs => rfl
    · simp [hr]
  | vundefined => rfl
  | vnull => rfl
  | vbool b => rfl
  | vnum n => rfl
  | vstrN => rfl
  | vstrP p => rfl
  | vobj gs => rfl

/-- On a key-avoiding input, the extractor yields nothing at every fuel,
whenever the sniffer rejects key-avoiding records and the structuredContent
guard does too. -/
lemma extractFuel_none_of_avoid {bad : List String} {guard sniff : JVal → Bool}
    (hsniff : ∀ r, avoidKeysJ bad r = true → sniff r = false)
    (hguard : ∀ record s, avoidKeysJ bad record = true →
      coerceToRecord (getField record "structuredContent") = some s →
      guard s = false) :
    ∀ (fuel : Nat) (v : JVal), avoidKeysJ bad v = true →
      extractFuel guard sniff fuel v = none := by
  intro fuel
  induction fuel with
  | zero => intro v _; rfl
  | succ n ih =>
    intro v hv
    rw [extractFuel]
    cases hc : coerceToRecord v with
    | none => rfl
    | some record =>
      have hrec := avoid_coerce hv hc
      have h1 := structuredPart_none hguard hrec
      have h2 : wrapperPart (fun u => extractFuel guard sniff n u) record = none :=
        wrapperPart_none (fun u hu => ih u hu) hrec
      have h3 : contentPart (fun u => extractFuel guard sniff n u) record = none :=
        contentPart_none (fun u hu => ih u hu) hrec
      have h4 : selfPart sniff record = none := by
        simp [selfPart, hsniff record hrec]
      have h5 : valuesSweep sniff (ownValues record) = none :=
        valuesSweep_none hsniff _ (avoid_ownValues hrec)
      show (match structuredPart guard record with
            | some s => some s
            | none =>
              match wrapperPart (fun u => extractFuel guard sniff n u) record with
              | some x => some x
              | none =>
                match contentPart (fun u => extractFuel guard sniff n u) record with
                | some x => some x
                | none =>
                  match selfPart sniff record with
                  | some r => some r
                  | none => valuesSweep sniff (ownValues record)) = none
      rw [h1, h2, h3, h4, h5]

/-- C7 counterexample: an input in which no recognized key of the room-search
schema occurs anywhere in the structure, yet the room-search extractor
returns a record rather than nothing, because a coercible structuredContent
field is returned without any sniffer check. -/
theorem c7_no_recognized_keys_cex :
    avoidKeysJ rsRecognizedKeys
        (jobj [("structuredContent", jobj [("bar", .vnum 2)])]) = true ∧
    extractStructuredPayload
        (jobj [("structuredContent", jobj [("bar", .vnum 2)])]) ≠ none := by
  decide

/-- C7 amended: the room-search extractor returns nothing, without error and
without a partial object, on every input in which neither a recognized key
nor a structuredContent field occurs anywhere in the structure; the booking
extractor returns nothing already when no recognized booking key occurs
anywhere. -/
theorem c7_clean_input_none_amended :
    ∀ v : JVal,
      (avoidKeysJ rsBadKeys v = true → extractStructuredPayload v = none) ∧
      (avoidKeysJ bookingRecognizedKeys v = true → extractBookingPayload v = none) := by
  intro v
  constructor
  · intro hv
    have hs : ∀ r, avoidKeysJ rsBadKeys r = true → hasSearchRoomsData r = false := by
      intro r hr
      show (hasOwnKey r "rooms" || hasOwnKey r "hotels" || hasOwnKey r "count" ||
        hasOwnKey r "property_name" || hasOwnKey r "error") = false
      rw [avoid_hasOwnKey_false hr (k := "rooms") (by decide),
        avoid_hasOwnKey_false hr (k := "hotels") (by decide),
        avoid_hasOwnKey_false hr (k := "count") (by decide),
        avoid_hasOwnKey_false hr (k := "property_name") (by decide),
        avoid_hasOwnKey_false hr (k := "error") (by decide)]
      rfl
    have hg : ∀ record s, avoidKeysJ rsBadKeys record = true →
        coerceToRecord (getField record "structuredContent") = some s →
        alwaysTrue s = false := by
      intro record s hrec heq
      rw [avoid_getField_bad hrec (k := "structuredContent") (by decide)] at heq
      exact absurd heq (by simp [coerceToRecord])
    show extractFuel alwaysTrue hasSearchRoomsData (sizeJ v + 1) v = none
    exact extractFuel_none_of_avoid hs hg _ v hv
  · intro hv
    have hs : ∀ r, avoidKeysJ bookingRecognizedKeys r = true →
        hasBookingData r = false := by
      intro r hr
      show (hasOwnKey r "booking_id" ||
        (hasOwnKey r "status" && hasOwnKey r "total" && hasOwnKey r "check_in")) = false
      rw [avoid_hasOwnKey_false hr (k := "booking_id") (by decide),
        avoid_hasOwnKey_false hr (k := "status") (by decide)]
      rfl
    have hg : ∀ record s, avoidKeysJ bookingRecognizedKeys record = true →
        coerceToRecord (getField record "structuredContent") = some s →
        hasBookingData s = false := by
      intro record s hrec heq
      exact hs s (avoid_coerce (avoid_getField hrec "structuredContent") heq)
    show extractFuel hasBookingData hasBookingData (sizeJ v + 1) v = none
    exact extractFuel_none_of_avoid hs hg _ v hv

/-- C7 amended, witness: a record with a single unrecognized key is clean for
both schemas and both extractors return nothing on it. -/
theorem c7_clean_input_none_amended_witness :
    extractStructuredPayload (jobj [("bar", .vnum 2)]) = none ∧
    extractBookingPayload (jobj [("bar", .vnum 2)]) = none :=
  ⟨(c7_clean_input_none_amended (jobj [("bar", .vnum 2)])).1 (by decide),
   (c7_clean_input_none_amended (jobj [("bar", .vnum 2)])).2 (by decide)⟩

end Widget
